import Mathlib

/-!
Verification of the mediaintel dashboard (`src/streamlitapptania.py`).

The file shallowly embeds the data-cleaning pipeline (`normalize_column_name`,
`clean_data`), the two aggregations the claims mention (`top_5_locations`,
`engagement_by_date`) and the insight requester (`get_gemini_insight`).

Python strings are modelled as lists of code points (`Str := List Nat`), a
pandas frame as a header list plus a list of rows, and a pandas cell as the
inductive `Cell` (a missing value `NaN`, a datetime, an integer, or a string).
`pd.to_datetime` / `pd.to_numeric` applied to a string are outside the
repository, so they enter the model as parameters (`Parsers`); every theorem
holds for an arbitrary parser pair, and concrete witnesses instantiate them
with small table-driven parsers that agree with pandas on the inputs used.
-/

/-- Python strings as lists of Unicode code points. -/
abbrev Str := List Nat

/-- Code points of a Lean string literal (used to write down concrete data). -/
def S (s : String) : Str := s.toList.map Char.toNat

/-- `str.lower` on one code point, for the ASCII range: uppercase letters
(65–90) are shifted by 32, everything else is unchanged. -/
def lowerNat (n : Nat) : Nat := if 65 ≤ n ∧ n ≤ 90 then n + 32 else n

/-- Line 60: `name.lower().replace(' ', '').replace('_', '')` — lower-case the
name, then remove spaces (code point 32), then remove underscores (95). -/
def normalize_column_name (name : Str) : Str :=
  ((name.map lowerNat).filter (fun c => !decide (c = 32))).filter (fun c => !decide (c = 95))

/-- Whitespace stripped by Python's `str.strip` (the ASCII cases: tab, LF,
VT, FF, CR, space). -/
def isWS (n : Nat) : Bool := decide (n = 32) || (decide (9 ≤ n) && decide (n ≤ 13))

/-- Python's `str.strip()`: drop whitespace from the front, then from the back. -/
def strip (s : Str) : Str := ((s.dropWhile isWS).reverse.dropWhile isWS).reverse

/-- A pandas cell: missing (`NaN`/`NaT`), a datetime (a calendar-day ordinal;
the model works at day granularity), an integer, or a string. -/
inductive Cell where
  | null : Cell
  | date : Int → Cell
  | int : Int → Cell
  | text : Str → Cell
deriving DecidableEq, Repr

/-- A pandas `DataFrame`: column labels plus rows of cells, each row aligned
positionally with the labels. -/
structure DataFrame where
  headers : List Str
  rows : List (List Cell)
deriving DecidableEq, Repr

/-- The `pd.DataFrame()` returned on a failed schema check (line 83). -/
def empty_df : DataFrame := ⟨[], []⟩

/-- Cell of a row at a column position (out-of-range reads give `NaN`;
frames read from a CSV are rectangular, so in-range in practice). -/
def getCell (r : List Cell) (j : Nat) : Cell := r.getD j Cell.null

/-- Label-based column selection: position of the first matching label,
as pandas does for a unique label (`List.findIdx` is the list length
when the label is absent). -/
def colIdx (headers : List Str) (name : Str) : Nat :=
  headers.findIdx (fun h => h == name)

/-- Column-wise assignment `df[name] = df[name].map f`: rewrite position `j`
of every row. -/
def mapCol (j : Nat) (f : Cell → Cell) (rows : List (List Cell)) : List (List Cell) :=
  rows.map (fun r => r.set j (f (getCell r j)))

/-- The string parsers of the pandas library, which is outside the repository:
`parseDate s` is `pd.to_datetime(s)` (a day ordinal, or `none` when pandas
raises/coerces to `NaT`), `parseNum s` is `pd.to_numeric(s)` followed by the
`astype(int)` truncation (or `none` when pandas coerces to `NaN`). -/
structure Parsers where
  parseDate : Str → Option Int
  parseNum : Str → Option Int

/-- `pd.to_datetime(c, errors='coerce')` on one cell: missing stays missing,
datetimes pass through, integers are interpreted as valid timestamps,
strings go through the library parser. -/
def to_datetime (P : Parsers) : Cell → Option Int
  | Cell.null => none
  | Cell.date d => some d
  | Cell.int n => some n
  | Cell.text s => P.parseDate s

/-- `pd.to_numeric(c, errors='coerce')` (composed with the later `astype(int)`
truncation) on one cell: missing and non-numeric cells coerce to `NaN`
(`none`), integers pass through, strings go through the library parser. -/
def to_numeric (P : Parsers) : Cell → Option Int
  | Cell.null => none
  | Cell.date _ => none
  | Cell.int n => some n
  | Cell.text s => P.parseNum s

/-- Line 87: the 'date' column after `pd.to_datetime(col, errors='coerce')` —
parsed values become datetimes, failures become `NaT`. -/
def dateStepCell (P : Parsers) (c : Cell) : Cell :=
  match to_datetime P c with
  | some d => Cell.date d
  | none => Cell.null

/-- Line 92: `pd.to_numeric(col, errors='coerce').fillna(0).astype(int)`
on one cell. -/
def engStepCell (P : Parsers) (c : Cell) : Cell :=
  Cell.int ((to_numeric P c).getD 0)

/-- `series.astype(str)` on one cell: every value is replaced by its Python
string form; in particular a missing value becomes the literal string
`"nan"` (`str(nan)`), not a missing value. -/
def astype_str : Cell → Cell
  | Cell.null => Cell.text (S "nan")
  | Cell.date d => Cell.text (S (toString d))
  | Cell.int n => Cell.text (S (toString n))
  | Cell.text s => Cell.text s

/-- `series.fillna(v)`: replace missing values by `v`, keep the rest. -/
def fillna (v : Cell) : Cell → Cell
  | Cell.null => v
  | c => c

/-- `series.str.strip()`: strip string cells; the `.str` accessor turns any
non-string cell into `NaN` (unreachable here, since it runs after
`astype(str)`). -/
def str_strip : Cell → Cell
  | Cell.text s => Cell.text (strip s)
  | _ => Cell.null

/-- Line 97: `col.astype(str).fillna('Unknown').str.strip()` on one cell,
in exactly that order. -/
def cleanTextCell (c : Cell) : Cell :=
  str_strip (fillna (Cell.text (S "Unknown")) (astype_str c))

/-- The canonical required column labels (line 77). -/
def required_columns : List Str :=
  [S "date", S "platform", S "sentiment", S "location", S "engagements", S "mediatype"]

/-- Line 78: `[col for col in required_columns if col not in df_cleaned.columns]`,
computed over the already-normalized headers. -/
def missing_columns (headers : List Str) : List Str :=
  required_columns.filter (fun c => !(headers.contains c))

/-- One iteration of the loop at lines 95–97: if the column is present,
pass it through `cleanTextCell`. -/
def applyTextCol (headers : List Str) (name : Str) (rows : List (List Cell)) :
    List (List Cell) :=
  if headers.contains name then mapCol (colIdx headers name) cleanTextCell rows else rows

/-- `clean_data` (lines 64–99): normalize all headers, check the required
set, report the missing columns and return an empty frame if any is missing;
otherwise parse the date column and drop rows where parsing failed, coerce
engagements to integers with missing values as 0, and normalize the four
text columns. -/
def clean_data (P : Parsers) (df : DataFrame) : DataFrame :=
  let headers := df.headers.map normalize_column_name
  if (missing_columns headers).isEmpty then
    let di := colIdx headers (S "date")
    let rows1 := mapCol di (dateStepCell P) df.rows
    let rows2 := rows1.filter (fun r => !(getCell r di == Cell.null))
    let rows3 := mapCol (colIdx headers (S "engagements")) (engStepCell P) rows2
    let rows4 :=
      applyTextCol headers (S "mediatype")
        (applyTextCol headers (S "location")
          (applyTextCol headers (S "sentiment")
            (applyTextCol headers (S "platform") rows3)))
    ⟨headers, rows4⟩
  else empty_df

/-- Fuel-indexed worker for `dedupFirst`; the fuel only bounds the recursion
depth (one unit per distinct head) and never runs out when it starts at the
list length. -/
def dedupF {α : Type} [DecidableEq α] : Nat → List α → List α
  | _, [] => []
  | 0, _ :: _ => []
  | fuel + 1, x :: xs => x :: dedupF fuel (xs.filter (fun y => !decide (y = x)))

/-- Distinct values of a list in order of first encounter — the group order
produced by a pandas hash-table `groupby`/`value_counts` pass. -/
def dedupFirst {α : Type} [DecidableEq α] (l : List α) : List α := dedupF l.length l

theorem dedupF_congr {α : Type} [DecidableEq α] (m : Nat) :
    ∀ (n : Nat) (l : List α), l.length ≤ m → l.length ≤ n → dedupF m l = dedupF n l := by
  induction m with
  | zero =>
    intro n l hm _
    cases l with
    | nil => cases n <;> rfl
    | cons x xs => simp at hm
  | succ m ih =>
    intro n l hm hn
    cases l with
    | nil => cases n <;> rfl
    | cons x xs =>
      cases n with
      | zero => simp at hn
      | succ n' =>
        simp only [dedupF]
        congr 1
        apply ih
        · exact le_trans (List.length_filter_le _ _) (Nat.le_of_succ_le_succ hm)
        · exact le_trans (List.length_filter_le _ _) (Nat.le_of_succ_le_succ hn)

theorem dedupFirst_nil {α : Type} [DecidableEq α] : dedupFirst ([] : List α) = [] := rfl

theorem dedupFirst_cons {α : Type} [DecidableEq α] (x : α) (xs : List α) :
    dedupFirst (x :: xs) = x :: dedupFirst (xs.filter (fun y => !decide (y = x))) := by
  rw [dedupFirst, dedupFirst]
  simp only [List.length_cons, dedupF]
  congr 1
  exact dedupF_congr xs.length _ _ (List.length_filter_le _ _) le_rfl

/-- Stable insertion into a sorted list: the new element goes in front of
the first element `y` with `le x y`, hence in front of every element it
ties with. -/
def insertLe {α : Type} (le : α → α → Bool) (x : α) : List α → List α
  | [] => [x]
  | y :: ys => if le x y then x :: y :: ys else y :: insertLe le x ys

/-- Stable insertion sort with respect to `le` (later elements are inserted
first, so elements that compare equal keep their input order). -/
def sortLe {α : Type} (le : α → α → Bool) : List α → List α
  | [] => []
  | x :: xs => insertLe le x (sortLe le xs)

/-- Descending-count comparison used by `value_counts`. -/
def countGE {α : Type} (p q : α × Nat) : Bool := decide (q.2 ≤ p.2)

/-- `series.value_counts()`: drop missing values, count each distinct value
(groups formed in first-encounter order), and sort the counts descending;
the sort is stable, so ties keep first-encounter order. -/
def value_counts (l : List Cell) : List (Cell × Nat) :=
  let l' := l.filter (fun c => !(c == Cell.null))
  sortLe countGE ((dedupFirst l').map (fun x => (x, l'.count x)))

/-- `df[name]`: the column of `df` labelled `name`. -/
def column (df : DataFrame) (name : Str) : List Cell :=
  df.rows.map (fun r => getCell r (colIdx df.headers name))

/-- Lines 267–269: `data['location'].value_counts().reset_index()` followed by
`.head(5)` — location/count pairs, truncated to the first five. -/
def top_5_locations (df : DataFrame) : List (Cell × Nat) :=
  (value_counts (column df (S "location"))).take 5

/-- `data['date'].dt.date` on one cell of the cleaned date column (the model
keeps dates at day granularity, so this reads the day ordinal; non-date
cells do not occur in a cleaned frame). -/
def cellDate : Cell → Int
  | Cell.date d => d
  | Cell.int n => n
  | _ => 0

/-- Integer content of a cleaned engagements cell (always `Cell.int` in a
cleaned frame). -/
def cellInt : Cell → Int
  | Cell.int n => n
  | _ => 0

/-- The (date, engagements) pairs of a cleaned frame, row by row. -/
def date_eng_pairs (df : DataFrame) : List (Int × Int) :=
  df.rows.map (fun r =>
    (cellDate (getCell r (colIdx df.headers (S "date"))),
     cellInt (getCell r (colIdx df.headers (S "engagements")))))

/-- Total engagements of the records carrying a given date. -/
def sumEngFor (pairs : List (Int × Int)) (d : Int) : Int :=
  ((pairs.filter (fun q => q.1 == d)).map (fun q => q.2)).sum

/-- Ascending-date comparison used by `sort_values('date')`. -/
def dateLE (p q : Int × Int) : Bool := decide (p.1 ≤ q.1)

/-- Lines 228–231: `data.groupby(data['date'].dt.date)['engagements'].sum()`
followed by `sort_values('date')` — one (date, total) pair per distinct
date, sorted ascending by date. -/
def engagement_by_date (df : DataFrame) : List (Int × Int) :=
  let pairs := date_eng_pairs df
  sortLe dateLE ((dedupFirst (pairs.map (fun q => q.1))).map (fun d => (d, sumEngFor pairs d)))

/-- A Python value as decoded from JSON by `response.json()`: `None`, a bool,
an int, a string, a list, or a dict with string keys. -/
inductive PyVal where
  | pynone : PyVal
  | pybool : Bool → PyVal
  | pyint : Int → PyVal
  | pystr : Str → PyVal
  | pylist : List PyVal → PyVal
  | pydict : List (Str × PyVal) → PyVal

/-- Python type name of a decoded JSON value, as it appears in error texts. -/
def pyTypeName : PyVal → Str
  | PyVal.pynone => S "NoneType"
  | PyVal.pybool _ => S "bool"
  | PyVal.pyint _ => S "int"
  | PyVal.pystr _ => S "str"
  | PyVal.pylist _ => S "list"
  | PyVal.pydict _ => S "dict"

/-- Python truthiness of a decoded JSON value. -/
def truthy : PyVal → Bool
  | PyVal.pynone => false
  | PyVal.pybool b => b
  | PyVal.pyint n => !decide (n = 0)
  | PyVal.pystr s => !s.isEmpty
  | PyVal.pylist xs => !xs.isEmpty
  | PyVal.pydict kvs => !kvs.isEmpty

/-- `v.get(k)`: dictionary lookup defaulting to `None`; on every non-dict
decoded JSON value the `get` attribute does not exist, so the call raises
`AttributeError`. Exceptions are modelled as `Except.error` carrying
`str(e)` of the raised exception. -/
def pyGet (v : PyVal) (k : Str) : Except Str PyVal :=
  match v with
  | PyVal.pydict kvs => Except.ok ((kvs.lookup k).getD PyVal.pynone)
  | _ => Except.error (S "'" ++ pyTypeName v ++ S "' object has no attribute 'get'")

/-- `v[k]` with a string key: dictionary subscript; `KeyError` when the key
is absent, `TypeError` on non-dicts. -/
def pySubscript (v : PyVal) (k : Str) : Except Str PyVal :=
  match v with
  | PyVal.pydict kvs =>
    match kvs.lookup k with
    | some x => Except.ok x
    | none => Except.error (S "KeyError")
  | _ => Except.error (S "' object is not subscriptable")

/-- `v[i]` with an integer index: list indexing; `IndexError` out of range,
`TypeError` on values that are not sequences. -/
def pyIndex (v : PyVal) (i : Nat) : Except Str PyVal :=
  match v with
  | PyVal.pylist xs =>
    match xs.get? i with
    | some x => Except.ok x
    | none => Except.error (S "list index out of range")
  | _ => Except.error (S "' object is not subscriptable")

/-- `len(v)`: length of a list, string or dict; `TypeError` otherwise. -/
def pyLen (v : PyVal) : Except Str Nat :=
  match v with
  | PyVal.pylist xs => Except.ok xs.length
  | PyVal.pystr s => Except.ok s.length
  | PyVal.pydict kvs => Except.ok kvs.length
  | _ => Except.error (S "object has no len")

/-- Attribute access `v.a` for the attribute names used on line 40 (`parts`,
`text`): no value decoded from JSON (`None`/bool/int/str/list/dict) carries
such an attribute, so the access raises `AttributeError`. -/
def pyAttr (v : PyVal) (a : Str) : Except Str PyVal :=
  Except.error (S "'" ++ pyTypeName v ++ S "' object has no attribute '" ++ a ++ S "'")

/-- The condition of lines 37–39, evaluated left to right with Python's
short-circuit `and`; any step may raise. -/
def shape_check (result : PyVal) : Except Str Bool := do
  if !truthy result then return false
  let g1 ← pyGet result (S "candidates")
  if !truthy g1 then return false
  let c1 ← pySubscript result (S "candidates")
  let n1 ← pyLen c1
  if !decide (0 < n1) then return false
  let c2 ← pySubscript result (S "candidates")
  let e2 ← pyIndex c2 0
  let g2 ← pyGet e2 (S "content")
  if !truthy g2 then return false
  let c3 ← pySubscript result (S "candidates")
  let e3 ← pyIndex c3 0
  let t3 ← pySubscript e3 (S "content")
  let g3 ← pyGet t3 (S "parts")
  if !truthy g3 then return false
  let c4 ← pySubscript result (S "candidates")
  let e4 ← pyIndex c4 0
  let t4 ← pySubscript e4 (S "content")
  let p4 ← pySubscript t4 (S "parts")
  let n4 ← pyLen p4
  return decide (0 < n4)

/-- Line 43's fixed placeholder return value. -/
def unexpected_shape_msg : Str :=
  S "Tidak dapat menghasilkan wawasan. (Struktur respons tidak terduga)"

/-- Line 55's generic failure string `"Gagal mengambil wawasan. Kesalahan: " + str(e)`. -/
def generic_fail_msg (e : Str) : Str :=
  S "Gagal mengambil wawasan. Kesalahan: " ++ e

/-- Line 40: `result['candidates'][0]['content'].parts[0].text`. The two
attribute accesses are `pyAttr`; on a dict-shaped response the first one
(`.parts`) raises `AttributeError`. -/
def extract_line40 (result : PyVal) : Except Str PyVal := do
  let c ← pySubscript result (S "candidates")
  let c0 ← pyIndex c 0
  let content ← pySubscript c0 (S "content")
  let p ← pyAttr content (S "parts")
  let p0 ← pyIndex p 0
  pyAttr p0 (S "text")

/-- The try-body of lines 35–43 applied to a decoded success response, with
the `except Exception` handler of lines 53–55 wrapped around it: a raised
exception becomes the generic failure string. (The value returned on
line 40 would be the extracted text; the non-string fallback arm is
unreachable because `extract_line40` always raises before producing
a value.) -/
def gemini_success (result : PyVal) : Str :=
  let body : Except Str Str := do
    let ok ← shape_check result
    if ok then
      let v ← extract_line40 result
      match v with
      | PyVal.pystr s => return s
      | _ => return []
    else
      return unexpected_shape_msg
  match body with
  | Except.ok s => s
  | Except.error e => generic_fail_msg e

/-- Outcome of the network call of lines 32–34 plus `response.json()`:
either a decoded JSON body, or one of the exception classes handled on
lines 44–55 (`HTTPError` with an optional status code from
`raise_for_status`, `ConnectionError`, `Timeout`, or any other exception
with its `str(e)` text). -/
inductive NetOutcome where
  | success : PyVal → NetOutcome
  | httpError : Option Int → NetOutcome
  | connError : NetOutcome
  | timeout : NetOutcome
  | otherError : Str → NetOutcome

/-- Line 46's return value: the status code when the `HTTPError` carries a
response, `'Tidak diketahui'` otherwise. -/
def http_fail_msg (st : Option Int) : Str :=
  S "Gagal mengambil wawasan. Kesalahan HTTP: " ++
    (match st with
     | some n => S (toString n)
     | none => S "Tidak diketahui")

/-- Line 49's return value. -/
def conn_fail_msg : Str := S "Gagal mengambil wawasan. Kesalahan koneksi."

/-- Line 52's return value. -/
def timeout_fail_msg : Str := S "Gagal mengambil wawasan. Waktu habis."

/-- `get_gemini_insight` (lines 17–55) as a function of the network outcome:
every failure is caught by its handler and turned into a string return
value; nothing propagates to the caller. -/
def get_gemini_insight : NetOutcome → Str
  | NetOutcome.success body => gemini_success body
  | NetOutcome.httpError st => http_fail_msg st
  | NetOutcome.connError => conn_fail_msg
  | NetOutcome.timeout => timeout_fail_msg
  | NetOutcome.otherError e => generic_fail_msg e

/-- The four transport-failure categories named in the handlers of
lines 44–55. -/
inductive FailCat where
  | http : FailCat
  | conn : FailCat
  | timedOut : FailCat
  | unspecified : FailCat
deriving DecidableEq, Repr

/-- Failure category of a network outcome (`none` for a success). -/
def failCatOf : NetOutcome → Option FailCat
  | NetOutcome.success _ => none
  | NetOutcome.httpError _ => some FailCat.http
  | NetOutcome.connError => some FailCat.conn
  | NetOutcome.timeout => some FailCat.timedOut
  | NetOutcome.otherError _ => some FailCat.unspecified

/-- The failure string each handler returns, by category (`none` for a
success outcome). -/
def transport_message : NetOutcome → Option Str
  | NetOutcome.success _ => none
  | NetOutcome.httpError st => some (http_fail_msg st)
  | NetOutcome.connError => some conn_fail_msg
  | NetOutcome.timeout => some timeout_fail_msg
  | NetOutcome.otherError e => some (generic_fail_msg e)

/-- Reading the failure category back off a returned string: the four
handler messages have pairwise distinct shapes, so the category is
recoverable from the text alone. -/
def msg_category (s : Str) : Option FailCat :=
  if (S "Gagal mengambil wawasan. Kesalahan HTTP: ").isPrefixOf s then some FailCat.http
  else if s == conn_fail_msg then some FailCat.conn
  else if s == timeout_fail_msg then some FailCat.timedOut
  else if (S "Gagal mengambil wawasan. Kesalahan: ").isPrefixOf s then some FailCat.unspecified
  else none

/-- Table-driven stand-in for the pandas string parsers, agreeing with
pandas on the concrete strings used in the witnesses: `pd.to_datetime`
parses the ISO dates below (day ordinals of the proleptic Gregorian
calendar) and fails on `"not-a-date"`; `pd.to_numeric` parses the plain
integers below and fails on `"bad"`. -/
def demoParsers : Parsers :=
  ⟨fun s =>
    if s == S "2024-01-01" then some 738886
    else if s == S "2024-01-02" then some 738887
    else none,
   fun s =>
    if s == S "150" then some 150
    else if s == S "-5" then some (-5)
    else if s == S "200" then some 200
    else none⟩

/-- The spec's scenario input: two records, the second with an unparsable
date and an unparsable engagements value. -/
def demoDF : DataFrame :=
  ⟨[S "Date", S "Platform", S "Sentiment", S "Location", S "Engagements", S "Media Type"],
   [[Cell.text (S "2024-01-01"), Cell.text (S "Twitter"), Cell.text (S "Positive"),
     Cell.text (S "NYC"), Cell.text (S "150"), Cell.text (S "Post")],
    [Cell.text (S "not-a-date"), Cell.text (S "FB"), Cell.text (S "Negative"),
     Cell.text (S "LA"), Cell.text (S "bad"), Cell.text (S "Video")]]⟩

/-- A schema-complete frame whose single record carries the negative
engagements string `"-5"` (pandas parses it to the number −5). -/
def negEngDF : DataFrame :=
  ⟨[S "Date", S "Platform", S "Sentiment", S "Location", S "Engagements", S "Media Type"],
   [[Cell.text (S "2024-01-01"), Cell.text (S "Twitter"), Cell.text (S "Positive"),
     Cell.text (S "NYC"), Cell.text (S "-5"), Cell.text (S "Post")]]⟩

/-- A schema-complete frame whose single record has a missing (`NaN`)
platform value. -/
def nullPlatformDF : DataFrame :=
  ⟨[S "Date", S "Platform", S "Sentiment", S "Location", S "Engagements", S "Media Type"],
   [[Cell.text (S "2024-01-01"), Cell.null, Cell.text (S "Positive"),
     Cell.text (S "NYC"), Cell.text (S "150"), Cell.text (S "Post")]]⟩

/-- A frame missing the `Location` column (the spec's schema-error scenario). -/
def missingLocDF : DataFrame :=
  ⟨[S "Date", S "Platform", S "Sentiment", S "Engagements", S "Media Type"],
   [[Cell.text (S "2024-01-01"), Cell.text (S "Twitter"), Cell.text (S "Positive"),
     Cell.text (S "150"), Cell.text (S "Post")]]⟩

/-- A well-formed success response of the text-generation endpoint:
`{"candidates": [{"content": {"parts": [{"text": "halo"}]}}]}`. -/
def wellFormedResponse : PyVal :=
  PyVal.pydict [(S "candidates",
    PyVal.pylist [PyVal.pydict [(S "content",
      PyVal.pydict [(S "parts",
        PyVal.pylist [PyVal.pydict [(S "text", PyVal.pystr (S "halo"))]])])]])]

/-- Effect of one column-wise assignment on a single row. -/
def rowSet (j : Nat) (f : Cell → Cell) (r : List Cell) : List Cell :=
  r.set j (f (getCell r j))

/-- Effect of one text-column iteration (lines 95–97) on a single row. -/
def applyTextRow (headers : List Str) (name : Str) (r : List Cell) : List Cell :=
  if headers.contains name then rowSet (colIdx headers name) cleanTextCell r else r

/-- Effect of the whole row-level pipeline of `clean_data` on one surviving
row: date parse, engagement coercion, then the four text columns in the
loop's order. -/
def cleanRow (P : Parsers) (headers : List Str) (r : List Cell) : List Cell :=
  applyTextRow headers (S "mediatype")
    (applyTextRow headers (S "location")
      (applyTextRow headers (S "sentiment")
        (applyTextRow headers (S "platform")
          (rowSet (colIdx headers (S "engagements")) (engStepCell P)
            (rowSet (colIdx headers (S "date")) (dateStepCell P) r)))))

/-- A row survives the  `dropna(subset=['date'])` of line 89 exactly when its
date cell parses. -/
def dateParses (P : Parsers) (headers : List Str) (r : List Cell) : Bool :=
  (to_datetime P (getCell r (colIdx headers (S "date")))).isSome

theorem getCell_set_self (r : List Cell) (j : Nat) (v : Cell) (h : j < r.length) :
    getCell (r.set j v) j = v := by
  simp [getCell, List.getD_eq_getElem?_getD, List.getElem?_set_self, h]

theorem getCell_set_ne (r : List Cell) (i j : Nat) (v : Cell) (h : i ≠ j) :
    getCell (r.set i v) j = getCell r j := by
  simp [getCell, List.getD_eq_getElem?_getD, List.getElem?_set_ne h]

theorem set_getCell_self (r : List Cell) (j : Nat) : r.set j (getCell r j) = r := by
  rcases Nat.lt_or_ge j r.length with h | h
  · apply List.ext_getElem
    · simp
    intro n h1 h2
    rcases eq_or_ne j n with rfl | hne
    · simp [getCell, List.getD_eq_getElem?_getD, List.getElem?_eq_getElem h]
    · rw [List.getElem_set_ne hne]
  · exact List.set_eq_of_length_le h

theorem length_rowSet (j : Nat) (f : Cell → Cell) (r : List Cell) :
    (rowSet j f r).length = r.length := by
  simp [rowSet]

theorem getCell_rowSet_self (j : Nat) (f : Cell → Cell) (r : List Cell) (h : j < r.length) :
    getCell (rowSet j f r) j = f (getCell r j) :=
  getCell_set_self r j _ h

theorem getCell_rowSet_ne (i j : Nat) (f : Cell → Cell) (r : List Cell) (h : i ≠ j) :
    getCell (rowSet i f r) j = getCell r j :=
  getCell_set_ne r i j _ h

theorem rowSet_eq_self (j : Nat) (f : Cell → Cell) (r : List Cell)
    (h : j < r.length → f (getCell r j) = getCell r j) : rowSet j f r = r := by
  rcases Nat.lt_or_ge j r.length with hl | hl
  · rw [rowSet, h hl, set_getCell_self]
  · exact List.set_eq_of_length_le hl

theorem colIdx_spec (H : List Str) (c : Str) (h : c ∈ H) :
    colIdx H c < H.length ∧ H.getD (colIdx H c) [] = c := by
  induction H with
  | nil => cases h
  | cons a t ih =>
    by_cases hac : a = c
    · subst hac
      constructor
      · simp [colIdx, List.findIdx_cons]
      · simp [colIdx, List.findIdx_cons]
    · have hmem : c ∈ t := by
        rcases List.mem_cons.mp h with h1 | h1
        · exact absurd h1.symm hac
        · exact h1
      have hbeq : (a == c) = false := by
        simp [hac]
      constructor
      · simp only [colIdx, List.findIdx_cons, hbeq, cond_false, List.length_cons]
        exact Nat.succ_lt_succ (ih hmem).1
      · simp only [colIdx, List.findIdx_cons, hbeq, cond_false, List.getD_cons_succ]
        exact (ih hmem).2

theorem colIdx_ne (H : List Str) (c₁ c₂ : Str) (h₁ : c₁ ∈ H) (h₂ : c₂ ∈ H)
    (hne : c₁ ≠ c₂) : colIdx H c₁ ≠ colIdx H c₂ := by
  intro heq
  apply hne
  have e₁ := (colIdx_spec H c₁ h₁).2
  have e₂ := (colIdx_spec H c₂ h₂).2
  rw [← e₁, ← e₂, heq]

theorem required_mem_of_ok (H : List Str)
    (hok : missing_columns H = []) : ∀ c ∈ required_columns, c ∈ H := by
  intro c hc
  have := (List.filter_eq_nil_iff.mp hok) c hc
  simp only [Bool.not_eq_true', Bool.not_eq_false] at this
  exact List.elem_iff.mp this

theorem getCell_out (r : List Cell) (j : Nat) (h : r.length ≤ j) : getCell r j = Cell.null := by
  simp [getCell, List.getD_eq_getElem?_getD, List.getElem?_eq_none h]

theorem applyTextCol_eq_map (H : List Str) (n : Str) (rows : List (List Cell)) :
    applyTextCol H n rows = rows.map (applyTextRow H n) := by
  by_cases hm : n ∈ H
  · simp [applyTextCol, applyTextRow, hm, mapCol, rowSet]
  · have he : applyTextRow H n = fun r => r := by
      funext r
      simp [applyTextRow, hm]
    simp [applyTextCol, hm, he]

theorem filter_date_step (P : Parsers) (H : List Str) (rows : List (List Cell)) :
    ((mapCol (colIdx H (S "date")) (dateStepCell P) rows).filter
        (fun r => !(getCell r (colIdx H (S "date")) == Cell.null)))
      = (rows.filter (dateParses P H)).map (rowSet (colIdx H (S "date")) (dateStepCell P)) := by
  rw [show mapCol (colIdx H (S "date")) (dateStepCell P) rows
        = rows.map (rowSet (colIdx H (S "date")) (dateStepCell P)) from rfl]
  rw [List.filter_map]
  congr 1
  apply List.filter_congr
  intro r _
  rcases Nat.lt_or_ge (colIdx H (S "date")) r.length with hl | hl
  · rw [Function.comp_apply, getCell_rowSet_self _ _ _ hl, dateParses, dateStepCell]
    cases to_datetime P (getCell r (colIdx H (S "date"))) <;> simp
  · rw [Function.comp_apply, rowSet, List.set_eq_of_length_le hl, dateParses,
      getCell_out r _ hl]
    simp [to_datetime]

theorem clean_data_ok (P : Parsers) (df : DataFrame)
    (hok : missing_columns (df.headers.map normalize_column_name) = []) :
    clean_data P df =
      ⟨df.headers.map normalize_column_name,
       (df.rows.filter (dateParses P (df.headers.map normalize_column_name))).map
         (cleanRow P (df.headers.map normalize_column_name))⟩ := by
  simp only [clean_data, hok, List.isEmpty_nil, if_true]
  congr 1
  rw [applyTextCol_eq_map, applyTextCol_eq_map, applyTextCol_eq_map, applyTextCol_eq_map]
  rw [show mapCol (colIdx (df.headers.map normalize_column_name) (S "engagements"))
        (engStepCell P) = fun rows => rows.map
          (rowSet (colIdx (df.headers.map normalize_column_name) (S "engagements"))
            (engStepCell P)) from rfl]
  rw [filter_date_step]
  simp only [List.map_map]
  rfl

theorem applyTextRow_of_mem (H : List Str) (n : Str) (r : List Cell) (h : n ∈ H) :
    applyTextRow H n r = rowSet (colIdx H n) cleanTextCell r := by
  simp [applyTextRow, h]

theorem applyTextRow_length (H : List Str) (n : Str) (r : List Cell) :
    (applyTextRow H n r).length = r.length := by
  unfold applyTextRow
  split
  · exact length_rowSet _ _ _
  · rfl

theorem cleanRow_length (P : Parsers) (H : List Str) (r : List Cell) :
    (cleanRow P H r).length = r.length := by
  simp [cleanRow, applyTextRow_length, length_rowSet]

theorem cleanRow_eng (P : Parsers) (H : List Str) (r : List Cell)
    (hreq : ∀ c ∈ required_columns, c ∈ H)
    (hl : colIdx H (S "engagements") < r.length) :
    getCell (cleanRow P H r) (colIdx H (S "engagements"))
      = engStepCell P (getCell r (colIdx H (S "engagements"))) := by
  have hp : S "platform" ∈ H := hreq _ (by decide)
  have hs : S "sentiment" ∈ H := hreq _ (by decide)
  have hlo : S "location" ∈ H := hreq _ (by decide)
  have hmt : S "mediatype" ∈ H := hreq _ (by decide)
  have hdt : S "date" ∈ H := hreq _ (by decide)
  have he : S "engagements" ∈ H := hreq _ (by decide)
  rw [cleanRow,
    applyTextRow_of_mem _ _ _ hmt,
    getCell_rowSet_ne _ _ _ _ (colIdx_ne H _ _ hmt he (by decide)),
    applyTextRow_of_mem _ _ _ hlo,
    getCell_rowSet_ne _ _ _ _ (colIdx_ne H _ _ hlo he (by decide)),
    applyTextRow_of_mem _ _ _ hs,
    getCell_rowSet_ne _ _ _ _ (colIdx_ne H _ _ hs he (by decide)),
    applyTextRow_of_mem _ _ _ hp,
    getCell_rowSet_ne _ _ _ _ (colIdx_ne H _ _ hp he (by decide)),
    getCell_rowSet_self _ _ _ (by rw [length_rowSet]; exact hl),
    getCell_rowSet_ne _ _ _ _ (colIdx_ne H _ _ hdt he (by decide))]

theorem cleanRow_date (P : Parsers) (H : List Str) (r : List Cell)
    (hreq : ∀ c ∈ required_columns, c ∈ H)
    (hl : colIdx H (S "date") < r.length) :
    getCell (cleanRow P H r) (colIdx H (S "date"))
      = dateStepCell P (getCell r (colIdx H (S "date"))) := by
  have hp : S "platform" ∈ H := hreq _ (by decide)
  have hs : S "sentiment" ∈ H := hreq _ (by decide)
  have hlo : S "location" ∈ H := hreq _ (by decide)
  have hmt : S "mediatype" ∈ H := hreq _ (by decide)
  have hdt : S "date" ∈ H := hreq _ (by decide)
  have he : S "engagements" ∈ H := hreq _ (by decide)
  rw [cleanRow,
    applyTextRow_of_mem _ _ _ hmt,
    getCell_rowSet_ne _ _ _ _ (colIdx_ne H _ _ hmt hdt (by decide)),
    applyTextRow_of_mem _ _ _ hlo,
    getCell_rowSet_ne _ _ _ _ (colIdx_ne H _ _ hlo hdt (by decide)),
    applyTextRow_of_mem _ _ _ hs,
    getCell_rowSet_ne _ _ _ _ (colIdx_ne H _ _ hs hdt (by decide)),
    applyTextRow_of_mem _ _ _ hp,
    getCell_rowSet_ne _ _ _ _ (colIdx_ne H _ _ hp hdt (by decide)),
    getCell_rowSet_ne _ _ _ _ (colIdx_ne H _ _ he hdt (by decide)),
    getCell_rowSet_self _ _ _ hl]

theorem cleanRow_platform (P : Parsers) (H : List Str) (r : List Cell)
    (hreq : ∀ c ∈ required_columns, c ∈ H)
    (hl : colIdx H (S "platform") < r.length) :
    getCell (cleanRow P H r) (colIdx H (S "platform"))
      = cleanTextCell (getCell r (colIdx H (S "platform"))) := by
  have hp : S "platform" ∈ H := hreq _ (by decide)
  have hs : S "sentiment" ∈ H := hreq _ (by decide)
  have hlo : S "location" ∈ H := hreq _ (by decide)
  have hmt : S "mediatype" ∈ H := hreq _ (by decide)
  have hdt : S "date" ∈ H := hreq _ (by decide)
  have he : S "engagements" ∈ H := hreq _ (by decide)
  rw [cleanRow,
    applyTextRow_of_mem _ _ _ hmt,
    getCell_rowSet_ne _ _ _ _ (colIdx_ne H _ _ hmt hp (by decide)),
    applyTextRow_of_mem _ _ _ hlo,
    getCell_rowSet_ne _ _ _ _ (colIdx_ne H _ _ hlo hp (by decide)),
    applyTextRow_of_mem _ _ _ hs,
    getCell_rowSet_ne _ _ _ _ (colIdx_ne H _ _ hs hp (by decide)),
    applyTextRow_of_mem _ _ _ hp,
    getCell_rowSet_self _ _ _ (by rw [length_rowSet, length_rowSet]; exact hl),
    getCell_rowSet_ne _ _ _ _ (colIdx_ne H _ _ he hp (by decide)),
    getCell_rowSet_ne _ _ _ _ (colIdx_ne H _ _ hdt hp (by decide))]

theorem cleanRow_sentiment (P : Parsers) (H : List Str) (r : List Cell)
    (hreq : ∀ c ∈ required_columns, c ∈ H)
    (hl : colIdx H (S "sentiment") < r.length) :
    getCell (cleanRow P H r) (colIdx H (S "sentiment"))
      = cleanTextCell (getCell r (colIdx H (S "sentiment"))) := by
  have hp : S "platform" ∈ H := hreq _ (by decide)
  have hs : S "sentiment" ∈ H := hreq _ (by decide)
  have hlo : S "location" ∈ H := hreq _ (by decide)
  have hmt : S "mediatype" ∈ H := hreq _ (by decide)
  have hdt : S "date" ∈ H := hreq _ (by decide)
  have he : S "engagements" ∈ H := hreq _ (by decide)
  rw [cleanRow,
    applyTextRow_of_mem _ _ _ hmt,
    getCell_rowSet_ne _ _ _ _ (colIdx_ne H _ _ hmt hs (by decide)),
    applyTextRow_of_mem _ _ _ hlo,
    getCell_rowSet_ne _ _ _ _ (colIdx_ne H _ _ hlo hs (by decide)),
    applyTextRow_of_mem _ _ _ hs,
    applyTextRow_of_mem _ _ _ hp,
    getCell_rowSet_self _ _ _
      (by rw [length_rowSet, length_rowSet, length_rowSet]; exact hl),
    getCell_rowSet_ne _ _ _ _ (colIdx_ne H _ _ hp hs (by decide)),
    getCell_rowSet_ne _ _ _ _ (colIdx_ne H _ _ he hs (by decide)),
    getCell_rowSet_ne _ _ _ _ (colIdx_ne H _ _ hdt hs (by decide))]

theorem cleanRow_location (P : Parsers) (H : List Str) (r : List Cell)
    (hreq : ∀ c ∈ required_columns, c ∈ H)
    (hl : colIdx H (S "location") < r.length) :
    getCell (cleanRow P H r) (colIdx H (S "location"))
      = cleanTextCell (getCell r (colIdx H (S "location"))) := by
  have hp : S "platform" ∈ H := hreq _ (by decide)
  have hs : S "sentiment" ∈ H := hreq _ (by decide)
  have hlo : S "location" ∈ H := hreq _ (by decide)
  have hmt : S "mediatype" ∈ H := hreq _ (by decide)
  have hdt : S "date" ∈ H := hreq _ (by decide)
  have he : S "engagements" ∈ H := hreq _ (by decide)
  rw [cleanRow,
    applyTextRow_of_mem _ _ _ hmt,
    getCell_rowSet_ne _ _ _ _ (colIdx_ne H _ _ hmt hlo (by decide)),
    applyTextRow_of_mem _ _ _ hlo,
    applyTextRow_of_mem _ _ _ hs,
    applyTextRow_of_mem _ _ _ hp,
    getCell_rowSet_self _ _ _
      (by rw [length_rowSet, length_rowSet, length_rowSet, length_rowSet]; exact hl),
    getCell_rowSet_ne _ _ _ _ (colIdx_ne H _ _ hs hlo (by decide)),
    getCell_rowSet_ne _ _ _ _ (colIdx_ne H _ _ hp hlo (by decide)),
    getCell_rowSet_ne _ _ _ _ (colIdx_ne H _ _ he hlo (by decide)),
    getCell_rowSet_ne _ _ _ _ (colIdx_ne H _ _ hdt hlo (by decide))]

theorem cleanRow_mediatype (P : Parsers) (H : List Str) (r : List Cell)
    (hreq : ∀ c ∈ required_columns, c ∈ H)
    (hl : colIdx H (S "mediatype") < r.length) :
    getCell (cleanRow P H r) (colIdx H (S "mediatype"))
      = cleanTextCell (getCell r (colIdx H (S "mediatype"))) := by
  have hp : S "platform" ∈ H := hreq _ (by decide)
  have hs : S "sentiment" ∈ H := hreq _ (by decide)
  have hlo : S "location" ∈ H := hreq _ (by decide)
  have hmt : S "mediatype" ∈ H := hreq _ (by decide)
  have hdt : S "date" ∈ H := hreq _ (by decide)
  have he : S "engagements" ∈ H := hreq _ (by decide)
  rw [cleanRow,
    applyTextRow_of_mem _ _ _ hmt,
    applyTextRow_of_mem _ _ _ hlo,
    applyTextRow_of_mem _ _ _ hs,
    applyTextRow_of_mem _ _ _ hp,
    getCell_rowSet_self _ _ _
      (by rw [length_rowSet, length_rowSet, length_rowSet, length_rowSet, length_rowSet]
          exact hl),
    getCell_rowSet_ne _ _ _ _ (colIdx_ne H _ _ hlo hmt (by decide)),
    getCell_rowSet_ne _ _ _ _ (colIdx_ne H _ _ hs hmt (by decide)),
    getCell_rowSet_ne _ _ _ _ (colIdx_ne H _ _ hp hmt (by decide)),
    getCell_rowSet_ne _ _ _ _ (colIdx_ne H _ _ he hmt (by decide)),
    getCell_rowSet_ne _ _ _ _ (colIdx_ne H _ _ hdt hmt (by decide))]

theorem cleanRow_other (P : Parsers) (H : List Str) (r : List Cell) (j : Nat)
    (hreq : ∀ c ∈ required_columns, c ∈ H)
    (hj : ∀ c ∈ required_columns, j ≠ colIdx H c) :
    getCell (cleanRow P H r) j = getCell r j := by
  have hp : S "platform" ∈ H := hreq _ (by decide)
  have hs : S "sentiment" ∈ H := hreq _ (by decide)
  have hlo : S "location" ∈ H := hreq _ (by decide)
  have hmt : S "mediatype" ∈ H := hreq _ (by decide)
  have hdt : S "date" ∈ H := hreq _ (by decide)
  have he : S "engagements" ∈ H := hreq _ (by decide)
  rw [cleanRow,
    applyTextRow_of_mem _ _ _ hmt,
    getCell_rowSet_ne _ _ _ _ (Ne.symm (hj _ (by decide))),
    applyTextRow_of_mem _ _ _ hlo,
    getCell_rowSet_ne _ _ _ _ (Ne.symm (hj _ (by decide))),
    applyTextRow_of_mem _ _ _ hs,
    getCell_rowSet_ne _ _ _ _ (Ne.symm (hj _ (by decide))),
    applyTextRow_of_mem _ _ _ hp,
    getCell_rowSet_ne _ _ _ _ (Ne.symm (hj _ (by decide))),
    getCell_rowSet_ne _ _ _ _ (Ne.symm (hj _ (by decide))),
    getCell_rowSet_ne _ _ _ _ (Ne.symm (hj _ (by decide)))]

theorem dropWhile_append_single {p : Nat → Bool} {a : Nat} (l : List Nat) (h : p a = false) :
    (l ++ [a]).dropWhile p = l.dropWhile p ++ [a] := by
  induction l with
  | nil => simp [List.dropWhile, h]
  | cons x xs ih =>
    by_cases hx : p x
    · simp [List.dropWhile, hx, ih]
    · simp [List.dropWhile, hx]

theorem dropWhile_strip (s : Str) : (strip s).dropWhile isWS = strip s := by
  unfold strip
  cases ht : s.dropWhile isWS with
  | nil => simp
  | cons a t' =>
    have ha : isWS a = false := by
      have := List.head?_dropWhile_not isWS s
      rw [ht] at this
      simpa using this
    rw [List.reverse_cons, dropWhile_append_single _ ha, List.reverse_append]
    simp [List.dropWhile, ha]

theorem strip_strip (s : Str) : strip (strip s) = strip s := by
  conv_lhs => rw [strip, dropWhile_strip, strip]
  rw [List.reverse_reverse, List.dropWhile_idempotent]
  rfl

theorem lowerNat_idem (n : Nat) : lowerNat (lowerNat n) = lowerNat n := by
  unfold lowerNat
  split
  · split <;> omega
  · rfl

theorem normalize_column_name_idem (s : Str) :
    normalize_column_name (normalize_column_name s) = normalize_column_name s := by
  unfold normalize_column_name
  have hmap : (((s.map lowerNat).filter (fun c => !decide (c = 32))).filter
      (fun c => !decide (c = 95))).map lowerNat
      = ((s.map lowerNat).filter (fun c => !decide (c = 32))).filter
          (fun c => !decide (c = 95)) := by
    rw [List.map_congr_left, List.map_id]
    intro a ha
    have ha' : a ∈ s.map lowerNat :=
      List.mem_of_mem_filter (List.mem_of_mem_filter ha)
    rcases List.mem_map.mp ha' with ⟨b, _, rfl⟩
    exact lowerNat_idem b
  rw [hmap]
  have h32 : (((s.map lowerNat).filter (fun c => !decide (c = 32))).filter
      (fun c => !decide (c = 95))).filter (fun c => !decide (c = 32))
      = ((s.map lowerNat).filter (fun c => !decide (c = 32))).filter
          (fun c => !decide (c = 95)) := by
    apply List.filter_eq_self.mpr
    intro a ha
    exact (List.mem_filter.mp (List.mem_of_mem_filter ha)).2
  rw [h32]
  apply List.filter_eq_self.mpr
  intro a ha
  exact (List.mem_filter.mp ha).2

theorem map_normalize_idem (hs : List Str) :
    (hs.map normalize_column_name).map normalize_column_name
      = hs.map normalize_column_name := by
  rw [List.map_map]
  apply List.map_congr_left
  intro a _
  exact normalize_column_name_idem a

theorem clean_data_fail (P : Parsers) (df : DataFrame)
    (hfail : missing_columns (df.headers.map normalize_column_name) ≠ []) :
    clean_data P df = empty_df := by
  simp only [clean_data]
  rw [if_neg]
  simp [List.isEmpty_iff, hfail]

theorem cleanTextCell_fix (c : Cell) :
    cleanTextCell (cleanTextCell c) = cleanTextCell c := by
  cases c <;> simp [cleanTextCell, astype_str, fillna, str_strip, strip_strip]

theorem engStepCell_fix (P : Parsers) (c : Cell) :
    engStepCell P (engStepCell P c) = engStepCell P c := by
  simp [engStepCell, to_numeric]

theorem cleanRow_fix (P : Parsers) (H : List Str) (r : List Cell)
    (hreq : ∀ c ∈ required_columns, c ∈ H)
    (hd : dateParses P H r = true) :
    dateParses P H (cleanRow P H r) = true ∧ cleanRow P H (cleanRow P H r) = cleanRow P H r := by
  have hdi : colIdx H (S "date") < r.length := by
    by_contra h
    push_neg at h
    rw [dateParses, getCell_out r _ h] at hd
    simp [to_datetime] at hd
  obtain ⟨d, hd'⟩ := Option.isSome_iff_exists.mp hd
  have hval : getCell (cleanRow P H r) (colIdx H (S "date")) = Cell.date d := by
    rw [cleanRow_date P H r hreq hdi, dateStepCell, hd']
  constructor
  · rw [dateParses, hval]
    simp [to_datetime]
  · have hlen : (cleanRow P H r).length = r.length := cleanRow_length P H r
    have e1 : rowSet (colIdx H (S "date")) (dateStepCell P) (cleanRow P H r)
        = cleanRow P H r := by
      apply rowSet_eq_self
      intro _
      rw [hval]
      simp [dateStepCell, to_datetime]
    have e2 : rowSet (colIdx H (S "engagements")) (engStepCell P) (cleanRow P H r)
        = cleanRow P H r := by
      apply rowSet_eq_self
      intro hl
      rw [hlen] at hl
      rw [cleanRow_eng P H r hreq hl, engStepCell_fix]
    have e3 : applyTextRow H (S "platform") (cleanRow P H r) = cleanRow P H r := by
      rw [applyTextRow_of_mem _ _ _ (hreq _ (by decide))]
      apply rowSet_eq_self
      intro hl
      rw [hlen] at hl
      rw [cleanRow_platform P H r hreq hl, cleanTextCell_fix]
    have e4 : applyTextRow H (S "sentiment") (cleanRow P H r) = cleanRow P H r := by
      rw [applyTextRow_of_mem _ _ _ (hreq _ (by decide))]
      apply rowSet_eq_self
      intro hl
      rw [hlen] at hl
      rw [cleanRow_sentiment P H r hreq hl, cleanTextCell_fix]
    have e5 : applyTextRow H (S "location") (cleanRow P H r) = cleanRow P H r := by
      rw [applyTextRow_of_mem _ _ _ (hreq _ (by decide))]
      apply rowSet_eq_self
      intro hl
      rw [hlen] at hl
      rw [cleanRow_location P H r hreq hl, cleanTextCell_fix]
    have e6 : applyTextRow H (S "mediatype") (cleanRow P H r) = cleanRow P H r := by
      rw [applyTextRow_of_mem _ _ _ (hreq _ (by decide))]
      apply rowSet_eq_self
      intro hl
      rw [hlen] at hl
      rw [cleanRow_mediatype P H r hreq hl, cleanTextCell_fix]
    conv_lhs => rw [cleanRow]
    rw [e1, e2, e3, e4, e5, e6]

/-- C3: cleaning is idempotent — applying `clean_data` to its own output
returns that output unchanged, for every input frame and every behaviour of
the library parsers. On a schema failure both sides are the empty frame;
otherwise dates stay dates, engagement integers stay fixed, text cells stay
trimmed, and no further rows are dropped. -/
theorem C3_clean_idempotent (P : Parsers) (df : DataFrame) :
    clean_data P (clean_data P df) = clean_data P df := by
  by_cases hok : missing_columns (df.headers.map normalize_column_name) = []
  · have hreq := required_mem_of_ok _ hok
    have h1 := clean_data_ok P df hok
    rw [h1]
    have hH : (df.headers.map normalize_column_name).map normalize_column_name
        = df.headers.map normalize_column_name := map_normalize_idem df.headers
    have hok2 : missing_columns
        ((DataFrame.mk (df.headers.map normalize_column_name)
          ((df.rows.filter (dateParses P (df.headers.map normalize_column_name))).map
            (cleanRow P (df.headers.map normalize_column_name)))).headers.map
          normalize_column_name) = [] := by
      simpa [hH] using hok
    rw [clean_data_ok P _ hok2]
    simp only [hH]
    congr 1
    have hfix : ∀ r' ∈ (df.rows.filter
        (dateParses P (df.headers.map normalize_column_name))).map
          (cleanRow P (df.headers.map normalize_column_name)),
        dateParses P (df.headers.map normalize_column_name) r' = true ∧
        cleanRow P (df.headers.map normalize_column_name) r' = r' := by
      intro r' hr'
      rcases List.mem_map.mp hr' with ⟨r, hr, rfl⟩
      exact cleanRow_fix P _ r hreq (List.of_mem_filter hr)
    rw [List.filter_eq_self.mpr (fun r' hr' => (hfix r' hr').1)]
    rw [List.map_congr_left (fun r' hr' => (hfix r' hr').2), List.map_id']
  · rw [clean_data_fail P df hok]
    exact clean_data_fail P empty_df (by decide)

/-- C6: when any required column is missing from the normalized headers,
`clean_data` reports exactly the missing fields (`missing_columns` is the
list interpolated into the `st.error` message of line 81) and returns the
empty frame, running none of the row-level cleaning steps. -/
theorem C6_schema_error (P : Parsers) (df : DataFrame)
    (hmiss : missing_columns (df.headers.map normalize_column_name) ≠ []) :
    clean_data P df = empty_df ∧
    ∀ c, c ∈ missing_columns (df.headers.map normalize_column_name) ↔
      (c ∈ required_columns ∧ c ∉ df.headers.map normalize_column_name) := by
  refine ⟨clean_data_fail P df hmiss, ?_⟩
  intro c
  simp [missing_columns, List.mem_filter]

/-- C7: for a frame that passes the schema check, the cleaned rows are
exactly the per-row images of the input rows whose date cell parses, in
input order — rows with unparsable dates are absent, rows with parsable
dates are retained — and the output has at most as many rows as the input. -/
theorem C7_unparsable_dates_dropped (P : Parsers) (df : DataFrame)
    (hok : missing_columns (df.headers.map normalize_column_name) = []) :
    (clean_data P df).rows
      = (df.rows.filter (dateParses P (df.headers.map normalize_column_name))).map
          (cleanRow P (df.headers.map normalize_column_name)) ∧
    (clean_data P df).rows.length ≤ df.rows.length := by
  have h := clean_data_ok P df hok
  constructor
  · rw [h]
  · rw [h]
    simp only [List.length_map]
    exact List.length_filter_le _ _

/-- The property C1 asserts of every cleaned engagements cell: it holds a
non-negative integer. -/
def isNonnegIntCell : Cell → Bool
  | Cell.int n => decide (0 ≤ n)
  | _ => false

/-- C1 fails as stated: a schema-valid frame whose engagements value is the
string `"-5"` (which `pd.to_numeric` parses to the number −5) cleans to a
row whose engagements cell is the negative integer −5 — the code never
clips the parsed value to be non-negative. -/
theorem C1_counterexample :
    ¬ (∀ r ∈ (clean_data demoParsers negEngDF).rows,
        isNonnegIntCell
          (getCell r (colIdx (negEngDF.headers.map normalize_column_name)
            (S "engagements"))) = true) := by decide

/-- C1 amended: in every cleaned row the engagements cell holds an integer,
namely the parsed source value with missing or unparsable values becoming
0 (`to_numeric` is `none` exactly on missing and unparsable cells, and
`Option.getD 0` maps `none` to 0); the value is not necessarily
non-negative. -/
theorem C1_amended (P : Parsers) (df : DataFrame)
    (hok : missing_columns (df.headers.map normalize_column_name) = [])
    (hal : ∀ r ∈ df.rows, r.length = df.headers.length) :
    (clean_data P df).rows
      = (df.rows.filter (dateParses P (df.headers.map normalize_column_name))).map
          (cleanRow P (df.headers.map normalize_column_name)) ∧
    ∀ r ∈ df.rows,
      getCell (cleanRow P (df.headers.map normalize_column_name) r)
          (colIdx (df.headers.map normalize_column_name) (S "engagements"))
        = Cell.int ((to_numeric P
            (getCell r (colIdx (df.headers.map normalize_column_name)
              (S "engagements")))).getD 0) := by
  have hreq := required_mem_of_ok _ hok
  refine ⟨(clean_data_ok P df hok) ▸ rfl, ?_⟩
  intro r hr
  have hlt : colIdx (df.headers.map normalize_column_name) (S "engagements") < r.length := by
    rw [hal r hr]
    have := (colIdx_spec (df.headers.map normalize_column_name) (S "engagements")
      (hreq (S "engagements") (by decide))).1
    rwa [List.length_map] at this
  rw [cleanRow_eng P _ r hreq hlt, engStepCell]

/-- C2 fails on the code: a record whose platform value is missing cleans
to the literal string `"nan"`, not to `"Unknown"` — `astype(str)` runs
before `fillna('Unknown')` and turns the missing value into the string
`"nan"`, so the `fillna` never fires. -/
theorem C2_null_platform_becomes_nan :
    getCell ((clean_data demoParsers nullPlatformDF).rows.getD 0 [])
        (colIdx (nullPlatformDF.headers.map normalize_column_name) (S "platform"))
      = Cell.text (S "nan") ∧ S "nan" ≠ S "Unknown" := by decide

/-- C10: for a frame passing the schema check, the cleaner keeps every input
column in place with only its label normalized, keeps surviving rows in
their input order (the cleaned rows are the ordered images of the
date-parsable input rows), and leaves every cell of a column whose
normalized label is outside the required set unchanged. -/
theorem C10_frame_preservation (P : Parsers) (df : DataFrame)
    (hok : missing_columns (df.headers.map normalize_column_name) = []) :
    (clean_data P df).headers = df.headers.map normalize_column_name ∧
    (clean_data P df).rows
      = (df.rows.filter (dateParses P (df.headers.map normalize_column_name))).map
          (cleanRow P (df.headers.map normalize_column_name)) ∧
    ∀ (r : List Cell) (j : Nat),
      (df.headers.map normalize_column_name).getD j [] ∉ required_columns →
      getCell (cleanRow P (df.headers.map normalize_column_name) r) j = getCell r j := by
  have hreq := required_mem_of_ok _ hok
  refine ⟨(clean_data_ok P df hok) ▸ rfl, (clean_data_ok P df hok) ▸ rfl, ?_⟩
  intro r j hj
  apply cleanRow_other P _ r j hreq
  intro c hc
  intro hEq
  apply hj
  rw [hEq, (colIdx_spec _ c (hreq c hc)).2]
  exact hc

/-- A schema-complete frame with an additional `Notes` column beyond the
required set. -/
def extraColDF : DataFrame :=
  ⟨[S "Date", S "Platform", S "Sentiment", S "Location", S "Engagements",
    S "Media Type", S "Notes"],
   [[Cell.text (S "2024-01-01"), Cell.text (S "Twitter"), Cell.text (S "Positive"),
     Cell.text (S "NYC"), Cell.text (S "150"), Cell.text (S "Post"),
     Cell.text (S "keep me")]]⟩

theorem C6_schema_error_witness :
    clean_data demoParsers missingLocDF = empty_df :=
  (C6_schema_error demoParsers missingLocDF (by decide)).1

theorem C7_unparsable_dates_dropped_witness :
    (clean_data demoParsers demoDF).rows.length ≤ demoDF.rows.length :=
  (C7_unparsable_dates_dropped demoParsers demoDF (by decide)).2

theorem C1_amended_witness :
    (clean_data demoParsers demoDF).rows
      = (demoDF.rows.filter
          (dateParses demoParsers (demoDF.headers.map normalize_column_name))).map
          (cleanRow demoParsers (demoDF.headers.map normalize_column_name)) :=
  (C1_amended demoParsers demoDF (by decide) (by decide)).1

theorem C10_frame_preservation_witness :
    getCell (cleanRow demoParsers (extraColDF.headers.map normalize_column_name)
        (extraColDF.rows.getD 0 [])) 6
      = getCell (extraColDF.rows.getD 0 []) 6 :=
  (C10_frame_preservation demoParsers extraColDF (by decide)).2.2
    (extraColDF.rows.getD 0 []) 6 (by decide)

theorem insertLe_perm {α : Type} (le : α → α → Bool) (x : α) (l : List α) :
    List.Perm (insertLe le x l) (x :: l) := by
  induction l with
  | nil => exact List.Perm.refl _
  | cons y ys ih =>
    unfold insertLe
    cases h : le x y
    · simp only [Bool.false_eq_true, if_false]
      exact (ih.cons y).trans (List.Perm.swap x y ys)
    · simp only [h, if_true]
      exact List.Perm.refl _

theorem sortLe_perm {α : Type} (le : α → α → Bool) (l : List α) :
    List.Perm (sortLe le l) l := by
  induction l with
  | nil => exact List.Perm.refl _
  | cons x xs ih =>
    exact (insertLe_perm le x (sortLe le xs)).trans (ih.cons x)

theorem mem_insertLe {α : Type} (le : α → α → Bool) (x a : α) (l : List α) :
    a ∈ insertLe le x l ↔ a = x ∨ a ∈ l := by
  rw [(insertLe_perm le x l).mem_iff, List.mem_cons]

theorem pairwise_insertLe {α : Type} (le : α → α → Bool)
    (htrans : ∀ a b c, le a b = true → le b c = true → le a c = true)
    (htot : ∀ a b, le a b = true ∨ le b a = true)
    (x : α) (l : List α) (hl : l.Pairwise (fun a b => le a b = true)) :
    (insertLe le x l).Pairwise (fun a b => le a b = true) := by
  induction l with
  | nil => simp [insertLe]
  | cons y ys ih =>
    rcases List.pairwise_cons.mp hl with ⟨hy, hys⟩
    unfold insertLe
    cases h : le x y
    · simp only [Bool.false_eq_true, if_false]
      apply List.pairwise_cons.mpr
      refine ⟨?_, ih hys⟩
      intro b hb
      rcases (mem_insertLe le x b ys).mp hb with rfl | hb'
      · rcases htot y b with hyb | hby
        · exact hyb
        · rw [hby] at h
          cases h
      · exact hy b hb'
    · simp only [if_true]
      apply List.pairwise_cons.mpr
      refine ⟨?_, hl⟩
      intro b hb
      rcases List.mem_cons.mp hb with rfl | hb'
      · exact h
      · exact htrans x y b h (hy b hb')

theorem pairwise_sortLe {α : Type} (le : α → α → Bool)
    (htrans : ∀ a b c, le a b = true → le b c = true → le a c = true)
    (htot : ∀ a b, le a b = true ∨ le b a = true)
    (l : List α) : (sortLe le l).Pairwise (fun a b => le a b = true) := by
  induction l with
  | nil => simp [sortLe]
  | cons x xs ih => exact pairwise_insertLe le htrans htot x _ ih

theorem filter_insertLe {α : Type} (le : α → α → Bool) (p : α → Bool) (x : α) (l : List α)
    (hmut : ∀ y ∈ l, p x = true → p y = true → le x y = true) :
    (insertLe le x l).filter p
      = if p x then x :: l.filter p else l.filter p := by
  induction l with
  | nil =>
    cases hx : p x <;> simp [insertLe, List.filter, hx]
  | cons y ys ih =>
    unfold insertLe
    cases h : le x y
    · simp only [Bool.false_eq_true, if_false]
      have ih' := ih (fun z hz => hmut z (List.mem_cons_of_mem y hz))
      cases hx : p x
      · simp only [List.filter, ih', hx, Bool.false_eq_true, if_false]
      · have hy : p y = false := by
          cases hy : p y
          · rfl
          · rw [hmut y (List.mem_cons_self y ys) hx hy] at h
            cases h
        simp only [List.filter, ih', hx, hy, if_true]
    · simp only [if_true]
      cases hx : p x <;> simp [List.filter, hx]

theorem filter_sortLe {α : Type} (le : α → α → Bool) (p : α → Bool)
    (hmut : ∀ a b, p a = true → p b = true → le a b = true)
    (l : List α) : (sortLe le l).filter p = l.filter p := by
  induction l with
  | nil => rfl
  | cons x xs ih =>
    rw [sortLe, filter_insertLe le p x _ (fun y _ => hmut x y)]
    cases hx : p x <;> simp [List.filter, hx, ih]

theorem mem_dedupFirst {α : Type} [DecidableEq α] (a : α) (l : List α) :
    a ∈ dedupFirst l ↔ a ∈ l := by
  suffices h : ∀ (n : Nat) (l : List α), l.length = n → (a ∈ dedupFirst l ↔ a ∈ l) from
    h l.length l rfl
  intro n
  induction n using Nat.strong_induction_on with
  | _ n ih =>
    intro l hlen
    cases l with
    | nil => simp [dedupFirst_nil]
    | cons x xs =>
      rw [dedupFirst_cons, List.mem_cons,
        ih (xs.filter (fun y => !decide (y = x))).length
          (by rw [← hlen]
              simp only [List.length_cons]
              exact Nat.lt_succ_of_le (List.length_filter_le _ _))
          _ rfl]
      by_cases hax : a = x
      · simp [hax]
      · simp [List.mem_filter, hax]

theorem nodup_dedupFirst {α : Type} [DecidableEq α] (l : List α) :
    (dedupFirst l).Nodup := by
  suffices h : ∀ (n : Nat) (l : List α), l.length = n → (dedupFirst l).Nodup from
    h l.length l rfl
  intro n
  induction n using Nat.strong_induction_on with
  | _ n ih =>
    intro l hlen
    cases l with
    | nil => simp [dedupFirst_nil]
    | cons x xs =>
    have ih' := ih (xs.filter (fun y => !decide (y = x))).length
      (by rw [← hlen]
          simp only [List.length_cons]
          exact Nat.lt_succ_of_le (List.length_filter_le _ _)) _ rfl
    rw [dedupFirst_cons]
    apply List.Pairwise.cons
    · intro b hb
      have hmem := (mem_dedupFirst b _).mp hb
      have hbx := (List.mem_filter.mp hmem).2
      simp only [Bool.not_eq_eq_eq_not, Bool.not_true, decide_eq_false_iff_not] at hbx
      exact fun hxb => hbx hxb.symm
    · exact ih'

/-- C8: the top-locations aggregation returns at most five entries; every
entry pairs a location occurring in the column with the exact number of
records carrying it; the underlying `value_counts` list (of which the
output is the 5-element prefix) is sorted descending by count; and within
each tie class the locations appear exactly in first-encounter order
(the `dedupFirst` order of the column). -/
theorem C8_top_locations (df : DataFrame) :
    (top_5_locations df).length ≤ 5 ∧
    (∀ p ∈ top_5_locations df,
      p.1 ∈ column df (S "location") ∧
      p.2 = (column df (S "location")).count p.1) ∧
    (top_5_locations df).Pairwise (fun p q => q.2 ≤ p.2) ∧
    ∀ n : Nat,
      ((value_counts (column df (S "location"))).filter
          (fun q => q.2 == n)).map Prod.fst
        = (dedupFirst ((column df (S "location")).filter
            (fun c => !(c == Cell.null)))).filter
            (fun x => ((column df (S "location")).filter
              (fun c => !(c == Cell.null))).count x == n) := by
  have htrans : ∀ a b c : Cell × Nat,
      countGE a b = true → countGE b c = true → countGE a c = true := by
    intro a b c hab hbc
    simp only [countGE, decide_eq_true_eq] at *
    omega
  have htot : ∀ a b : Cell × Nat, countGE a b = true ∨ countGE b a = true := by
    intro a b
    simp only [countGE, decide_eq_true_eq]
    omega
  refine ⟨List.length_take_le _ _, ?_, ?_, ?_⟩
  · intro p hp
    have hp' : p ∈ value_counts (column df (S "location")) :=
      List.mem_of_mem_take hp
    rw [value_counts] at hp'
    have hp'' := (sortLe_perm countGE _).mem_iff.mp hp'
    rcases List.mem_map.mp hp'' with ⟨x, hx, rfl⟩
    have hxl' := (mem_dedupFirst x _).mp hx
    have hxnn := (List.mem_filter.mp hxl').2
    constructor
    · exact List.mem_of_mem_filter hxl'
    · have hcf : List.count x ((column df (S "location")).filter
          (fun c => !(c == Cell.null))) = List.count x (column df (S "location")) :=
        List.count_filter hxnn
      exact hcf
  · apply List.Pairwise.sublist (List.take_sublist 5 _)
    have := pairwise_sortLe countGE htrans htot
      ((dedupFirst ((column df (S "location")).filter
        (fun c => !(c == Cell.null)))).map
        (fun x => (x, ((column df (S "location")).filter
          (fun c => !(c == Cell.null))).count x)))
    rw [value_counts]
    apply this.imp
    intro a b h
    simpa [countGE] using h
  · intro n
    rw [value_counts]
    rw [filter_sortLe countGE (fun q => q.2 == n) ?hmut]
    case hmut =>
      intro a b ha hb
      simp only [beq_iff_eq] at ha hb
      simp [countGE, ha, hb]
    rw [List.filter_map, List.map_map]
    rw [show ((fun q : Cell × Nat => q.2 == n) ∘
        (fun x => (x, ((column df (S "location")).filter
          (fun c => !(c == Cell.null))).count x)))
        = fun x => ((column df (S "location")).filter
            (fun c => !(c == Cell.null))).count x == n from rfl]
    rw [show (Prod.fst ∘ (fun x : Cell =>
        (x, ((column df (S "location")).filter
          (fun c => !(c == Cell.null))).count x)))
        = fun x : Cell => x from rfl]
    exact List.map_id' _

theorem C8_top_locations_witness :
    (top_5_locations (clean_data demoParsers demoDF)).length ≤ 5 ∧
    (Cell.text (S "NYC"), 1).2
      = (column (clean_data demoParsers demoDF) (S "location")).count
          (Cell.text (S "NYC"), 1).1 :=
  ⟨(C8_top_locations (clean_data demoParsers demoDF)).1,
   ((C8_top_locations (clean_data demoParsers demoDF)).2.1
     (Cell.text (S "NYC"), 1) (by decide)).2⟩

/-- C9: the engagement-trend aggregation lists each distinct date of the
input exactly once (its date keys are strictly increasing, hence
duplicate-free and sorted ascending), covers exactly the dates occurring
in the data, and pairs each date with the sum of the engagements of the
records carrying that date. -/
theorem C9_engagement_trend (df : DataFrame) :
    (engagement_by_date df).Pairwise (fun p q => p.1 < q.1) ∧
    (∀ d : Int, d ∈ (engagement_by_date df).map Prod.fst ↔
      d ∈ (date_eng_pairs df).map Prod.fst) ∧
    ∀ p ∈ engagement_by_date df, p.2 = sumEngFor (date_eng_pairs df) p.1 := by
  have htrans : ∀ a b c : Int × Int,
      dateLE a b = true → dateLE b c = true → dateLE a c = true := by
    intro a b c hab hbc
    simp only [dateLE, decide_eq_true_eq] at *
    omega
  have htot : ∀ a b : Int × Int, dateLE a b = true ∨ dateLE b a = true := by
    intro a b
    simp only [dateLE, decide_eq_true_eq]
    omega
  have hperm : List.Perm (engagement_by_date df)
      ((dedupFirst ((date_eng_pairs df).map (fun q => q.1))).map
        (fun d => (d, sumEngFor (date_eng_pairs df) d))) := by
    rw [engagement_by_date]
    exact sortLe_perm dateLE _
  have hfst : ∀ p ∈ engagement_by_date df,
      p.2 = sumEngFor (date_eng_pairs df) p.1 := by
    intro p hp
    rcases List.mem_map.mp (hperm.mem_iff.mp hp) with ⟨d, _, rfl⟩
    rfl
  have hnodupfst : ((engagement_by_date df).map Prod.fst).Nodup := by
    have h1 : List.Perm ((engagement_by_date df).map Prod.fst)
        (((dedupFirst ((date_eng_pairs df).map (fun q => q.1))).map
          (fun d => (d, sumEngFor (date_eng_pairs df) d))).map Prod.fst) :=
      hperm.map Prod.fst
    rw [List.map_map] at h1
    rw [show (Prod.fst ∘ (fun d : Int => (d, sumEngFor (date_eng_pairs df) d)))
        = fun d : Int => d from rfl, List.map_id'] at h1
    exact h1.nodup_iff.mpr (nodup_dedupFirst _)
  refine ⟨?_, ?_, hfst⟩
  · have hle : (engagement_by_date df).Pairwise (fun p q => dateLE p q = true) := by
      rw [engagement_by_date]
      exact pairwise_sortLe dateLE htrans htot _
    have hne : (engagement_by_date df).Pairwise (fun p q => p.1 ≠ q.1) :=
      (List.pairwise_map.mp hnodupfst)
    apply (hle.and hne).imp
    intro a b hab
    rcases hab with ⟨h1, h2⟩
    simp only [dateLE, decide_eq_true_eq] at h1
    omega
  · intro d
    have h1 : List.Perm ((engagement_by_date df).map Prod.fst)
        (dedupFirst ((date_eng_pairs df).map (fun q => q.1))) := by
      have := hperm.map Prod.fst
      rw [List.map_map] at this
      rwa [show (Prod.fst ∘ (fun d : Int => (d, sumEngFor (date_eng_pairs df) d)))
          = fun d : Int => d from rfl, List.map_id'] at this
    rw [h1.mem_iff, mem_dedupFirst]

theorem C9_engagement_trend_witness :
    ((738886 : Int), (150 : Int)).2
      = sumEngFor (date_eng_pairs (clean_data demoParsers demoDF))
          ((738886 : Int), (150 : Int)).1 :=
  (C9_engagement_trend (clean_data demoParsers demoDF)).2.2
    ((738886 : Int), (150 : Int)) (by decide)

/-- C4 fails on the code: on a well-formed success response
`{"candidates": [{"content": {"parts": [{"text": "halo"}]}}]}` the extraction
on line 40 reads `.parts` as an attribute of a dict, which raises
`AttributeError`; the generic handler of lines 53–55 catches it and the
function returns the generic failure string — never the contained text. -/
theorem C4_wellformed_response_mishandled :
    get_gemini_insight (NetOutcome.success wellFormedResponse)
      = generic_fail_msg (S "'dict' object has no attribute 'parts'") ∧
    get_gemini_insight (NetOutcome.success wellFormedResponse) ≠ S "halo" := by
  decide

theorem prefix_isPrefixOf (A e : Str) : A.isPrefixOf (A ++ e) = true :=
  List.isPrefixOf_iff_prefix.mpr (List.prefix_append A e)

theorem not_isPrefixOf_of_mismatch (B A e : Str) (k : Nat)
    (hkB : k < B.length) (hkA : k < A.length)
    (h : B.getD k 0 ≠ A.getD k 0) : B.isPrefixOf (A ++ e) = false := by
  cases hP : B.isPrefixOf (A ++ e) with
  | false => rfl
  | true =>
    exfalso
    obtain ⟨t, ht⟩ := List.isPrefixOf_iff_prefix.mp hP
    apply h
    have h1 := congrArg (fun l : Str => l.getD k 0) ht
    simp only at h1
    rw [List.getD_append _ _ _ _ hkB, List.getD_append _ _ _ _ hkA] at h1
    exact h1

theorem append_beq_false_of_mismatch (A e B : Str) (k : Nat)
    (hkA : k < A.length)
    (h : A.getD k 0 ≠ B.getD k 0) : ((A ++ e) == B) = false := by
  cases hP : (A ++ e) == B with
  | false => rfl
  | true =>
    exfalso
    apply h
    have ht : A ++ e = B := by simpa using hP
    have h1 := congrArg (fun l : Str => l.getD k 0) ht
    simp only at h1
    rw [List.getD_append _ _ _ _ hkA] at h1
    exact h1

/-- C5: every transport-level failure of the insight call — HTTP 4xx/5xx
status (with or without a response object), connection error, timeout, or
any other exception — is caught by its handler and turned into the
corresponding descriptive return string; the string determines the failure
category (`msg_category` reads it back), and no exception propagates
(`get_gemini_insight` is a total function into strings). -/
theorem C5_transport_failures (o : NetOutcome) (m : Str)
    (hm : transport_message o = some m) :
    get_gemini_insight o = m ∧ msg_category m = failCatOf o := by
  cases o with
  | success body => simp [transport_message] at hm
  | httpError st =>
    simp only [transport_message, Option.some.injEq] at hm
    subst hm
    refine ⟨rfl, ?_⟩
    simp only [msg_category, http_fail_msg, failCatOf]
    rw [prefix_isPrefixOf]
    simp
  | connError =>
    simp only [transport_message, Option.some.injEq] at hm
    subst hm
    exact ⟨rfl, by decide⟩
  | timeout =>
    simp only [transport_message, Option.some.injEq] at hm
    subst hm
    exact ⟨rfl, by decide⟩
  | otherError e =>
    simp only [transport_message, Option.some.injEq] at hm
    subst hm
    refine ⟨rfl, ?_⟩
    simp only [msg_category, generic_fail_msg, failCatOf]
    rw [not_isPrefixOf_of_mismatch _ _ _ 34 (by decide) (by decide) (by decide)]
    rw [append_beq_false_of_mismatch _ _ _ 34 (by decide) (by decide)]
    rw [append_beq_false_of_mismatch _ _ _ 25 (by decide) (by decide)]
    simp [prefix_isPrefixOf]

theorem C5_transport_failures_witness :
    get_gemini_insight NetOutcome.timeout = timeout_fail_msg ∧
    msg_category timeout_fail_msg = failCatOf NetOutcome.timeout :=
  C5_transport_failures NetOutcome.timeout timeout_fail_msg rfl
